import Mathlib

/-!
Formal model of the `enhanced_thermostat` custom component
(`custom_components/enhanced_thermostat/{schedule,climate,store}.py`).

Conventions of the shallow embedding:
* Python floats (temperatures, accumulated hours) are modelled as `ℚ`.
* Home Assistant `HVACMode` / `HVACAction` members are string enums in
  Python (`HVACMode.HEAT == "heat"`), so modes and actions are plain
  `String`s here, with named constants for the members that the code uses.
* `datetime` values are modelled by `DT`: a day index (calendar day) and a
  time of day in whole minutes.  Schedule times ("HH:MM") are always whole
  minutes, and the integration ticks once per minute, so minute granularity
  is faithful for everything the code compares.  `datetime.now()` is passed
  in as an explicit `now` argument.
* Functions that can raise a Python exception on some inputs return
  `Option` results, `none` standing for the raised exception.
* Parsed YAML documents are modelled by the `Yaml` value type; mapping keys
  that occur in a schedule are strings.
-/

/-- Parsed YAML value (the result of `yaml.safe_load`). -/
inductive Yaml where
  | null
  | bool (b : Bool)
  | num (q : ℚ)
  | str (s : String)
  | seq (xs : List Yaml)
  | map (kvs : List (String × Yaml))

/-- Python truthiness of a YAML value (`if x:`). -/
def Yaml.truthy : Yaml → Bool
  | .null => false
  | .bool b => b
  | .num q => decide (q ≠ 0)
  | .str s => decide (s ≠ "")
  | .seq xs => !xs.isEmpty
  | .map kvs => !kvs.isEmpty

/-- First-match association-list lookup (Python `dict` access / `.get`). -/
def lookupStr {α : Type} : List (String × α) → String → Option α
  | [], _ => none
  | (k, v) :: rest, key => if k = key then some v else lookupStr rest key

/-- HVACMode.OFF (the HA mode enums are string enums). -/
def modeOff : String := "off"

/-- HVACMode.HEAT. -/
def modeHeat : String := "heat"

/-- HVACMode.COOL. -/
def modeCool : String := "cool"

/-- The set of strings accepted by the `HVACMode(value)` enum constructor. -/
def validHvacModeStr (s : String) : Bool :=
  s = "off" || s = "heat" || s = "cool" || s = "heat_cool" ||
  s = "auto" || s = "dry" || s = "fan_only"

/-- `str.lower()` (list-based so the kernel can evaluate it). -/
def lowerStr (s : String) : String := ⟨s.data.map Char.toLower⟩

/-- A wall-clock instant: calendar-day index and time of day in minutes. -/
structure DT where
  day : Nat
  tod : Nat
deriving DecidableEq, Repr

/-- Python `datetime` comparison `a < b`. -/
def DT.before (a b : DT) : Bool :=
  a.day < b.day || (a.day == b.day && a.tod < b.tod)

/-- `a + timedelta(days=1)`. -/
def DT.addDays (a : DT) (n : Nat) : DT := { a with day := a.day + n }

/-- `now.strftime("%A").lower()`: weekday name of the day index. -/
def weekdayName (d : DT) : String :=
  match d.day % 7 with
  | 0 => "monday"
  | 1 => "tuesday"
  | 2 => "wednesday"
  | 3 => "thursday"
  | 4 => "friday"
  | 5 => "saturday"
  | _ => "sunday"

/-- Split a character list at every colon (for `strptime(_, "%H:%M")`). -/
def splitOnColon : List Char → List (List Char)
  | [] => [[]]
  | c :: rest =>
    let r := splitOnColon rest
    if c = ':' then [] :: r
    else
      match r with
      | [] => [[c]]
      | h :: t => (c :: h) :: t

/-- Decimal value of a digit list. -/
def digitsVal (l : List Char) : Nat :=
  l.foldl (fun acc c => acc * 10 + (c.toNat - 48)) 0

/-- `Schedule._parse_time`: `datetime.strptime(time_str, "%H:%M").time()`,
returning the time of day in minutes; `none` models the raised `ValueError`.
`strptime` accepts one or two digits for each of `%H` (0..23) and `%M`
(0..59), separated by a single colon. -/
def parseHHMM (s : String) : Option Nat :=
  match splitOnColon s.data with
  | [h, m] =>
    if h.length ≥ 1 && h.length ≤ 2 && m.length ≥ 1 && m.length ≤ 2 &&
        h.all Char.isDigit && m.all Char.isDigit then
      let hv := digitsVal h
      let mv := digitsVal m
      if hv ≤ 23 && mv ≤ 59 then some (hv * 60 + mv) else none
    else none
  | _ => none

/-- Validation of one day's event list in `Schedule._parse_schedule`:
every event must be a mapping that contains the key `"time"`. -/
def validEvents : List Yaml → Bool
  | [] => true
  | e :: rest =>
    (match e with
     | .map kvs => (lookupStr kvs "time").isSome
     | _ => false) && validEvents rest

/-- Validation of the top-level mapping in `Schedule._parse_schedule`:
every value must be a sequence of valid events. -/
def validDays : List (String × Yaml) → Bool
  | [] => true
  | (_, v) :: rest =>
    (match v with
     | .seq evs => validEvents evs
     | _ => false) && validDays rest

/-- `Schedule._parse_schedule`.  The input is the YAML document produced by
`yaml.safe_load` (`none` covers a falsy/empty source text and YAML syntax
errors, both of which the method maps to `None`).  On success the whole
top-level mapping is returned; on any validation failure the result is
`none` and nothing is installed. -/
def parseSchedule : Option Yaml → Option (List (String × Yaml))
  | none => none
  | some y =>
    match y with
    | .map kvs => if validDays kvs then some kvs else none
    | _ => none

/-- `event["time"]` followed by `_parse_time`: the sort/scan key of one
event.  `none` models the exception raised when the event is not a mapping,
has no `"time"` entry, the entry is not a string, or it fails to parse. -/
def eventTimeVal (e : Yaml) : Option Nat :=
  match e with
  | .map kvs =>
    match lookupStr kvs "time" with
    | some (.str s) => parseHHMM s
    | _ => none
  | _ => none

/-- Key extraction for `sorted(events, key=...)`: CPython computes the sort
key of every element up front, so a single bad time fails the whole call.
`none` models that raised exception. -/
def decorate : List Yaml → Option (List (Nat × Yaml))
  | [] => some []
  | e :: rest =>
    match eventTimeVal e, decorate rest with
    | some t, some ps => some ((t, e) :: ps)
    | _, _ => none

/-- The selection loop of `get_current_setpoint`: walk the sorted events,
remember the last one whose time is `≤ now.time()`, stop at the first later
one. -/
def scanLoop : List (Nat × Yaml) → Nat → Option Yaml → Option Yaml
  | [], _, cur => cur
  | p :: rest, tod, cur =>
    if p.1 ≤ tod then scanLoop rest tod (some p.2) else cur

/-- `Schedule.get_current_setpoint`.  State threaded explicitly:
`sched` is `self._schedule`, `oact`/`ountil` are `self._override_active` /
`self._override_until`.  The result is `none` when the Python code raises
(unparseable event time, or a day value that is not a list), otherwise
`some (returned setpoint, new override_active, new override_until)`. -/
def getCurrentSetpoint (sched : Option (List (String × Yaml))) (oact : Bool)
    (ountil : Option DT) (now : DT) :
    Option (Option Yaml × Bool × Option DT) :=
  match sched with
  | none => some (none, oact, ountil)
  | some m =>
    if m.isEmpty then some (none, oact, ountil)
    else if oact && (match ountil with
                     | some u => DT.before now u
                     | none => false) then
      some (none, oact, ountil)
    else
      match lookupStr m (weekdayName now) with
      | none => some (none, false, none)
      | some (.seq evs) =>
        match decorate evs with
        | none => none
        | some ps =>
          let sortedPs := List.insertionSort (fun a b => a.1 ≤ b.1) ps
          some (scanLoop sortedPs now.tod none, false, none)
      | some _ => none

/-- `Schedule.set_override(until)`. -/
def setOverride (until' : DT) : Bool × Option DT := (true, some until')

/-- A per-day runtime entry (`{"heating_hours": .., "cooling_hours": ..}`). -/
structure DayEntry where
  heating_hours : ℚ
  cooling_hours : ℚ
deriving DecidableEq, Repr

/-- The runtime ledger `self._runtime_data`: insertion-ordered mapping from
day key to entry. -/
abbrev RuntimeData := List (String × DayEntry)

/-- A device command issued through the HA service interface. -/
inductive Command where
  | setHvacMode (mode : String)
  | setTemperature (value : Yaml)

/-- The state owned by one `EnhancedThermostat` entity.  The first three
fields are the `hvac_mode`, `current_temperature` and `target_temperature`
properties of the latest underlying snapshot; the `override_*` fields are
the state of the owned `Schedule` object. -/
structure SupState where
  hvac_mode : String
  current_temperature : Option ℚ
  target_temperature : Option ℚ
  safety_min_temp : Option ℚ
  safety_max_temp : Option ℚ
  safety_active : Bool
  safety_triggered_mode : Option String
  schedule : Option (List (String × Yaml))
  override_active : Bool
  override_until : Option DT
  runtime_data : RuntimeData
  last_hvac_action : Option String
  last_action_timestamp : Option DT

/-- A coroutine object created by calling one of the `async def` set
operations without awaiting it (`_async_check_safety_temp`, climate.py
lines 190, 195, 206-207 and 214-215 are bare calls).  Creating the object
executes none of the body: no `set_override`, no service call — so these
branches never issue a device command and never touch the override
window.  (CPython merely warns that the coroutine was never awaited.) -/
inductive PendingCoroutine where
  | setHvacMode (mode : String)
  | setTemperature (value : Yaml)

/-- The names that `climate.py` binds from the `datetime` module: line 16
reads `from datetime import timedelta`, and the name `datetime` itself is
never imported, although lines 222 and 242 reference `datetime.now()`. -/
def climateModuleNames : List String := ["timedelta"]

/-- Evaluation of the expression `datetime.now()` inside `climate.py`:
the name `datetime` is unbound in that module, so the expression raises
`NameError` (`none`); `now` is the wall-clock instant the call would
return if the import existed. -/
def datetimeNowClimate (now : DT) : Option DT :=
  if "datetime" ∈ climateModuleNames then some now else none

/-- `_get_next_schedule_time`: its body `datetime.now() + timedelta(days=1)`
raises `NameError` at `datetime.now()`, so the method never returns; on the
unreachable success path the result would be `now + timedelta(days=1)`. -/
def getNextScheduleTime (now : DT) : Option DT :=
  (datetimeNowClimate now).map (fun n => n.addDays 1)

/-- The body of `async_set_hvac_mode`, as executed when the coroutine is
awaited: it evaluates `self._get_next_schedule_time()` first, which raises
`NameError` (`none`), so neither `set_override` nor the
`climate.set_hvac_mode` service call is ever reached.  The `some` branch
is the unreachable success path. -/
def setHvacModeOp (st : SupState) (now : DT) (m : String) :
    Option (SupState × List Command) :=
  match getNextScheduleTime now with
  | none => none
  | some u =>
    some ({ st with override_active := true, override_until := some u },
          [Command.setHvacMode m])

/-- The body of `async_set_temperature`, as executed when the coroutine is
awaited: like `async_set_hvac_mode` it raises `NameError` inside
`_get_next_schedule_time()` before `set_override` or the service call. -/
def setTemperatureOp (st : SupState) (now : DT) (v : Yaml) :
    Option (SupState × List Command) :=
  match getNextScheduleTime now with
  | none => none
  | some u =>
    some ({ st with override_active := true, override_until := some u },
          [Command.setTemperature v])

/-- `HYSTERESIS_BUFFER = 1.0`. -/
def HYSTERESIS_BUFFER : ℚ := 1

/-- The safety-heating activation block of `_async_check_safety_temp`: set
the two flags, call `async_set_hvac_mode(HEAT)` and
`async_set_temperature(min)` *without await* — only coroutine objects are
created, nothing in their bodies runs — then notify. -/
def safetyHeatActivation (st : SupState) (mn : ℚ) :
    SupState × List PendingCoroutine × List String :=
  ({ st with safety_active := true, safety_triggered_mode := some modeHeat },
   [PendingCoroutine.setHvacMode modeHeat,
    PendingCoroutine.setTemperature (Yaml.num mn)],
   ["Safety heating activated."])

/-- The safety-cooling activation block (symmetric, also un-awaited). -/
def safetyCoolActivation (st : SupState) (mx : ℚ) :
    SupState × List PendingCoroutine × List String :=
  ({ st with safety_active := true, safety_triggered_mode := some modeCool },
   [PendingCoroutine.setHvacMode modeCool,
    PendingCoroutine.setTemperature (Yaml.num mx)],
   ["Safety cooling activated."])

/-- The `elif self._safety_max_temp is not None and t > max` arm of the
inactive branch. -/
def safetyMaxCheck (st : SupState) (t : ℚ) :
    SupState × List PendingCoroutine × List String :=
  match st.safety_max_temp with
  | some mx => if mx < t then safetyCoolActivation st mx else (st, [], [])
  | none => (st, [], [])

/-- A hysteresis release: the bare (un-awaited) call
`self.async_set_hvac_mode(HVACMode.OFF)` creates a coroutine object and
discards it, then the flags are cleared and a notification is created.
No set-mode Off command is actually issued. -/
def safetyRelease (st : SupState) (msg : String) :
    SupState × List PendingCoroutine × List String :=
  ({ st with safety_active := false, safety_triggered_mode := none },
   [PendingCoroutine.setHvacMode modeOff], [msg])

/-- `_async_check_safety_temp`.  Result: `none` when the Python code would
raise a `TypeError` (comparing against an unset bound inside an active
override), otherwise `some (new state, coroutine objects created and
discarded, notifications)`.  The method never issues a device command and
never modifies the override window: its only async calls are bare,
un-awaited coroutine constructions. -/
def checkSafetyTemp (st : SupState) :
    Option (SupState × List PendingCoroutine × List String) :=
  match st.current_temperature with
  | none => some (st, [], [])
  | some t =>
    if st.safety_active then
      if some st.hvac_mode ≠ st.safety_triggered_mode then
        some ({ st with safety_active := false, safety_triggered_mode := none },
              [], ["Safety mode deactivated due to manual override."])
      else if st.safety_triggered_mode = some modeHeat then
        match st.safety_min_temp with
        | none => none
        | some mn =>
          if mn + HYSTERESIS_BUFFER ≤ t then
            some (safetyRelease st "Safety heating turned off.")
          else some (st, [], [])
      else if st.safety_triggered_mode = some modeCool then
        match st.safety_max_temp with
        | none => none
        | some mx =>
          if t ≤ mx - HYSTERESIS_BUFFER then
            some (safetyRelease st "Safety cooling turned off.")
          else some (st, [], [])
      else some (st, [], [])
    else if st.hvac_mode = modeOff then
      some (match st.safety_min_temp with
            | some mn =>
              if t < mn then safetyHeatActivation st mn
              else safetyMaxCheck st t
            | none => safetyMaxCheck st t)
    else some (st, [], [])

/-- `_async_apply_schedule`: evaluate the schedule and, when a setpoint is
returned, forward its mode and/or temperature through the *awaited* public
set operations.  `none` models a raised exception: schedule evaluation
raising, a non-mapping setpoint, a non-string truthy `hvac_mode` value, an
`hvac_mode` string the `HVACMode` constructor rejects — or, on every
actually attempted dispatch, the `NameError` the awaited set operation
raises inside `_get_next_schedule_time()` before any service call. -/
def applySchedule (st : SupState) (now : DT) :
    Option (SupState × List Command) :=
  match getCurrentSetpoint st.schedule st.override_active st.override_until now with
  | none => none
  | some (res, oact2, ountil2) =>
    let st0 := { st with override_active := oact2, override_until := ountil2 }
    match res with
    | none => some (st0, [])
    | some sp =>
      if sp.truthy then
        match sp with
        | .map kvs =>
          let step1 : Option (SupState × List Command) :=
            match lookupStr kvs "hvac_mode" with
            | none => some (st0, [])
            | some v =>
              if v.truthy then
                match v with
                | .str s =>
                  if s ≠ st.hvac_mode then
                    if validHvacModeStr (lowerStr s) then
                      setHvacModeOp st0 now (lowerStr s)
                    else none
                  else some (st0, [])
                | _ => none
              else some (st0, [])
          match step1 with
          | none => none
          | some (st1, cmds1) =>
            match lookupStr kvs "temperature" with
            | none => some (st1, cmds1)
            | some v =>
              if v.truthy then
                if (match v, st.target_temperature with
                    | .num q, some ct => decide (q = ct)
                    | _, _ => false) then
                  some (st1, cmds1)
                else
                  match setTemperatureOp st1 now v with
                  | none => none
                  | some (st2, cmds2) => some (st2, cmds1 ++ cmds2)
              else some (st1, cmds1)
        | _ => none
      else some (st0, [])

/-- A JSON document as written by `json.dump` / read by `json.load`. -/
inductive Json where
  | null
  | bool (b : Bool)
  | num (q : ℚ)
  | str (s : String)
  | arr (xs : List Json)
  | obj (entries : List (String × Json))

/-- JSON encoding of one runtime entry. -/
def encodeEntry (e : DayEntry) : Json :=
  .obj [("heating_hours", .num e.heating_hours),
        ("cooling_hours", .num e.cooling_hours)]

/-- JSON decoding of one runtime entry. -/
def decodeEntry : Json → Option DayEntry
  | .obj [("heating_hours", .num h), ("cooling_hours", .num c)] => some ⟨h, c⟩
  | _ => none

/-- JSON encoding of the ledger (`json.dump(self._data, f)`). -/
def encodeRuntime (d : RuntimeData) : Json :=
  .obj (d.map fun p => (p.1, encodeEntry p.2))

/-- Decoding of the entry list of a ledger document. -/
def decodeEntries : List (String × Json) → Option RuntimeData
  | [] => some []
  | (k, j) :: rest =>
    match decodeEntry j, decodeEntries rest with
    | some e, some d => some ((k, e) :: d)
    | _, _ => none

/-- JSON decoding of the ledger (`json.load(f)` on a file written by
`async_save`). -/
def decodeRuntime : Json → Option RuntimeData
  | .obj entries => decodeEntries entries
  | _ => none

/-- The state of a `Store`: the contents of its storage file (`none` when
the file is missing). -/
structure StoreSt where
  file : Option Json

/-- `Store.async_save(data)` on the successful path: serialise the ledger
and write it to the storage file. -/
def saveStore (_s : StoreSt) (d : RuntimeData) : StoreSt :=
  { file := some (encodeRuntime d) }

/-- `Store.async_load()`: parse the storage file; a missing or corrupt file
yields the empty ledger.  (A well-formed JSON file that is not ledger-shaped
is outside this model; `async_load` is only ever pointed at files written by
`async_save`.) -/
def loadStore (s : StoreSt) : RuntimeData :=
  match s.file with
  | none => []
  | some j => (decodeRuntime j).getD []

/-- A neutral supervisor state used as the base of the concrete instances
below (underlying device off at 20 degrees, no bounds, no schedule, no
history). -/
def baseSt : SupState :=
  { hvac_mode := modeOff, current_temperature := some 20,
    target_temperature := none, safety_min_temp := none,
    safety_max_temp := none, safety_active := false,
    safety_triggered_mode := none, schedule := none,
    override_active := false, override_until := none,
    runtime_data := [], last_hvac_action := none,
    last_action_timestamp := none }

/-- Concrete state for the C3 witness: safety heating active but the user
has switched the device to `cool`. -/
def c3WitnessSt : SupState :=
  { baseSt with hvac_mode := modeCool, current_temperature := some 18,
                safety_min_temp := some 15, safety_active := true,
                safety_triggered_mode := some modeHeat }

/-- Concrete state for the C1 counterexample: mode off, safety inactive,
min bound 30, max bound 10 (an inverted configuration the config flow does
not reject), current temperature 20 — above the max bound and below the min
bound at once. -/
def c1CounterSt : SupState :=
  { baseSt with safety_min_temp := some 30, safety_max_temp := some 10 }

/-- Concrete state for the C1 witness: mode off, safety inactive, min bound
15, current temperature 14. -/
def c1WitnessSt : SupState :=
  { baseSt with current_temperature := some 14, safety_min_temp := some 15 }

/-- Concrete two-day ledger for the C9 witness. -/
def c9WitnessLedger : RuntimeData :=
  [("739250", ⟨3, 0⟩), ("739251", ⟨1, 2⟩)]

/-- Concrete schedule document for the C4 counterexample: structurally
fine, but its `"time"` value does not parse as "HH:MM". -/
def c4BadDoc : Yaml :=
  Yaml.map [("monday", Yaml.seq [Yaml.map [("time", Yaml.str "banana")]])]

/-- The structural validity predicate of the amended Claim C4: the document
is a mapping, every value is a sequence, every element of a sequence is a
mapping carrying a `"time"` key.  (Parseability of the time string is
deliberately absent: the load does not check it.) -/
def SpecStructValid (y : Yaml) : Prop :=
  ∃ kvs, y = Yaml.map kvs ∧ ∀ p ∈ kvs, ∃ evs,
    (p : String × Yaml).2 = Yaml.seq evs ∧
    ∀ e ∈ evs, ∃ m, e = Yaml.map m ∧ (lookupStr m "time").isSome = true

instance : IsTotal (Nat × Yaml) (fun a b => a.1 ≤ b.1) :=
  ⟨fun a b => Nat.le_total a.1 b.1⟩

instance : IsTrans (Nat × Yaml) (fun a b => a.1 ≤ b.1) :=
  ⟨fun _ _ _ => Nat.le_trans⟩

/-- The 06:00 event of the scenario schedule in Claim C6. -/
def demoEv06 : Yaml := Yaml.map [("time", Yaml.str "06:00"), ("temperature", Yaml.num 20)]

/-- The 22:00 event of the scenario schedule in Claim C6. -/
def demoEv22 : Yaml := Yaml.map [("time", Yaml.str "22:00"), ("temperature", Yaml.num 17)]

/-- The scenario schedule of Claim C6:
`{monday: [{time: "06:00", temperature: 20}, {time: "22:00", temperature: 17}]}`. -/
def demoSched : List (String × Yaml) := [("monday", Yaml.seq [demoEv06, demoEv22])]

/-- The event of the C7 counterexample schedule: a scheduled temperature
of zero. -/
def c7Ev0 : Yaml :=
  Yaml.map [("time", Yaml.str "06:00"), ("temperature", Yaml.num 0)]

/-- The C7 counterexample schedule. -/
def c7CounterSched : List (String × Yaml) := [("monday", Yaml.seq [c7Ev0])]

/-- The C7 counterexample state: device in mode heat targeting 20 degrees,
with the zero-temperature schedule loaded and no override. -/
def c7CounterSt : SupState :=
  { baseSt with hvac_mode := modeHeat, target_temperature := some 20,
                schedule := some c7CounterSched }

/-- The entry list of the C7 witness event. -/
def c7WitnessKvs : List (String × Yaml) :=
  [("time", Yaml.str "06:00"), ("temperature", Yaml.num 20),
   ("hvac_mode", Yaml.str "heat")]

/-- The C7 witness schedule. -/
def c7WitnessSched : List (String × Yaml) :=
  [("monday", Yaml.seq [Yaml.map c7WitnessKvs])]

/-- The C7 witness state: device off targeting 15 degrees, witness schedule
loaded, no override. -/
def c7WitnessSt : SupState :=
  { baseSt with target_temperature := some 15,
                schedule := some c7WitnessSched }

/-! ## Helper lemmas -/

/-- An active, unexpired override makes evaluation return `None` with the
override state untouched, whatever the schedule holds. -/
theorem getCurrentSetpoint_suppressed (sched : Option (List (String × Yaml)))
    (oact : Bool) (ountil : Option DT) (now u : DT)
    (h1 : oact = true) (h2 : ountil = some u) (h3 : DT.before now u = true) :
    getCurrentSetpoint sched oact ountil now = some (none, oact, ountil) := by
  subst h1
  subst h2
  cases sched with
  | none => rfl
  | some m =>
    unfold getCurrentSetpoint
    simp [h3]

/-- Claim C5: for every schedule content (including empty or absent) and
every time `now`, if the override window is active and `now` is strictly
before its expiry, schedule evaluation returns `None` (and leaves the
override state alone) without inspecting the events. -/
theorem c5_override_suppresses_evaluation
    (sched : Option (List (String × Yaml))) (oact : Bool)
    (ountil : Option DT) (now u : DT)
    (h1 : oact = true) (h2 : ountil = some u) (h3 : DT.before now u = true) :
    getCurrentSetpoint sched oact ountil now = some (none, oact, ountil) :=
  getCurrentSetpoint_suppressed sched oact ountil now u h1 h2 h3

/-- Witness for C5 at a concrete unexpired override and a nonempty
schedule. -/
theorem c5_witness :
    DT.before ⟨3, 100⟩ ⟨3, 200⟩ = true ∧
    getCurrentSetpoint (some [("monday", Yaml.seq [])]) true (some ⟨3, 200⟩)
      ⟨3, 100⟩ = some (none, true, some ⟨3, 200⟩) :=
  ⟨by decide,
   c5_override_suppresses_evaluation (some [("monday", Yaml.seq [])]) true
     (some ⟨3, 200⟩) ⟨3, 100⟩ ⟨3, 200⟩ rfl rfl (by decide)⟩

/-! ## C3: manual-override release -/

/-- Claim C3: in a `SafetyOverride(m)` state, if the reported mode differs
from `m`, the guard clears the safety flags, emits one notification and no
command (it creates no coroutine object either), and leaves every other
field of the supervisor state unchanged. -/
theorem c3_manual_override_release (st : SupState) (t : ℚ)
    (m : String)
    (htemp : st.current_temperature = some t)
    (hact : st.safety_active = true)
    (htrig : st.safety_triggered_mode = some m)
    (hmode : st.hvac_mode ≠ m) :
    checkSafetyTemp st =
      some ({ st with safety_active := false, safety_triggered_mode := none },
            [], ["Safety mode deactivated due to manual override."]) := by
  unfold checkSafetyTemp
  rw [htemp]
  simp [hact, htrig, hmode]

/-- Witness for C3: a concrete override-heat state observed in mode `cool`. -/
theorem c3_witness :
    c3WitnessSt.safety_active = true ∧
    c3WitnessSt.safety_triggered_mode = some modeHeat ∧
    c3WitnessSt.hvac_mode ≠ modeHeat ∧
    checkSafetyTemp c3WitnessSt =
      some ({ c3WitnessSt with safety_active := false,
                               safety_triggered_mode := none },
            [], ["Safety mode deactivated due to manual override."]) :=
  ⟨rfl, rfl, by decide,
   c3_manual_override_release c3WitnessSt 18 modeHeat rfl rfl rfl
     (by decide)⟩
/-! ## C2: hysteresis release and dead-band -/

/-- Claim C1 (amended): from Normal with the device off, a temperature
strictly below a configured min bound makes the guard enter
`SafetyOverride(Heat)`: it sets the two safety flags and emits one
notification, but issues *no* set-mode or set-temperature command and
leaves the override window untouched — the two async set calls are bare,
never-awaited coroutine constructions (whose bodies would raise
`NameError` in `_get_next_schedule_time` even if awaited); a temperature
strictly above a configured max bound symmetrically enters
`SafetyOverride(Cool)` provided the min-bound condition does not hold as
well (the code checks the min bound first, so when both conditions hold
the heating branch wins). -/
theorem c1_safety_activation :
    (∀ (st : SupState) (t mn : ℚ),
      st.safety_active = false →
      st.hvac_mode = modeOff →
      st.current_temperature = some t →
      st.safety_min_temp = some mn →
      t < mn →
      checkSafetyTemp st =
        some ({ st with safety_active := true,
                        safety_triggered_mode := some modeHeat },
              [PendingCoroutine.setHvacMode modeHeat,
               PendingCoroutine.setTemperature (Yaml.num mn)],
              ["Safety heating activated."])) ∧
    (∀ (st : SupState) (t mx : ℚ),
      st.safety_active = false →
      st.hvac_mode = modeOff →
      st.current_temperature = some t →
      st.safety_max_temp = some mx →
      mx < t →
      (∀ mn, st.safety_min_temp = some mn → mn ≤ t) →
      checkSafetyTemp st =
        some ({ st with safety_active := true,
                        safety_triggered_mode := some modeCool },
              [PendingCoroutine.setHvacMode modeCool,
               PendingCoroutine.setTemperature (Yaml.num mx)],
              ["Safety cooling activated."])) := by
  constructor
  · intro st t mn hact hmode htemp hmin hlow
    unfold checkSafetyTemp
    rw [htemp]
    simp [htemp, hact, hmode, hmin, hlow, safetyHeatActivation]
  · intro st t mx hact hmode htemp hmax hhigh hnomin
    unfold checkSafetyTemp
    rw [htemp]
    cases hmn : st.safety_min_temp with
    | none =>
      simp [htemp, hact, hmode, hmn, hmax, hhigh, safetyMaxCheck,
            safetyCoolActivation]
    | some mn =>
      have hge : ¬ t < mn := not_lt.mpr (hnomin mn hmn)
      simp [htemp, hact, hmode, hmn, hmax, hge, hhigh, safetyMaxCheck,
            safetyCoolActivation]

/-- Counterexample to Claim C1 as stated: in `c1CounterSt` the guard is in
Normal, the mode is off, the max bound 10 is configured and the
temperature 20 is strictly above it, yet the evaluation enters safety
*heating* (the min bound 30 is checked first) — not the claimed
`SafetyOverride(Cool)` — and, despite the claim, issues no set-mode or
set-temperature command at all: the branch only creates two coroutine
objects it never awaits, and the override window stays untouched. -/
theorem c1_counterexample :
    c1CounterSt.safety_active = false ∧
    c1CounterSt.hvac_mode = modeOff ∧
    c1CounterSt.safety_max_temp = some 10 ∧
    c1CounterSt.current_temperature = some 20 ∧
    (10 : ℚ) < 20 ∧
    checkSafetyTemp c1CounterSt =
      some ({ c1CounterSt with safety_active := true,
                               safety_triggered_mode := some modeHeat },
            [PendingCoroutine.setHvacMode modeHeat,
             PendingCoroutine.setTemperature (Yaml.num 30)],
            ["Safety heating activated."]) ∧
    ({ c1CounterSt with safety_active := true,
                        safety_triggered_mode := some modeHeat } :
        SupState).override_active = false ∧
    modeHeat ≠ modeCool :=
  ⟨rfl, rfl, rfl, rfl, by decide, by rfl, rfl, by decide⟩

/-- Witness for C1: the heating activation at min bound 15, temperature
14. -/
theorem c1_witness :
    (14 : ℚ) < 15 ∧
    checkSafetyTemp c1WitnessSt =
      some ({ c1WitnessSt with safety_active := true,
                               safety_triggered_mode := some modeHeat },
            [PendingCoroutine.setHvacMode modeHeat,
             PendingCoroutine.setTemperature (Yaml.num 15)],
            ["Safety heating activated."]) :=
  ⟨by decide,
   c1_safety_activation.1 c1WitnessSt 14 15 rfl rfl rfl rfl (by decide)⟩

/-! ## C9: ledger round trip through the store -/

/-- Decoding inverts encoding entry-wise. -/
theorem decodeEntries_encode (d : RuntimeData) :
    decodeEntries (d.map fun p => (p.1, encodeEntry p.2)) = some d := by
  induction d with
  | nil => rfl
  | cons p rest ih =>
    simp only [List.map_cons, decodeEntries]
    rw [ih]
    simp [decodeEntry, encodeEntry]

/-- Claim C9: saving a runtime ledger to the store and loading it back
reproduces the identical day-keyed hour totals. -/
theorem c9_store_roundtrip (s : StoreSt) (d : RuntimeData)
    (hkeys : (d.map Prod.fst).Nodup) :
    loadStore (saveStore s d) = d := by
  simp [loadStore, saveStore, encodeRuntime, decodeRuntime,
        decodeEntries_encode]

/-- Witness for C9 at a two-day ledger. -/
theorem c9_witness :
    ((c9WitnessLedger.map Prod.fst).Nodup) ∧
    loadStore (saveStore ⟨none⟩ c9WitnessLedger) = c9WitnessLedger :=
  ⟨by decide, c9_store_roundtrip ⟨none⟩ c9WitnessLedger (by decide)⟩

/-! ## C4: schedule load validation -/

/-- `validEvents` as a predicate: every event is a mapping carrying the key
`"time"`. -/
theorem validEvents_iff (evs : List Yaml) :
    validEvents evs = true ↔
      ∀ e ∈ evs, ∃ m, e = Yaml.map m ∧ (lookupStr m "time").isSome = true := by
  induction evs with
  | nil => simp [validEvents]
  | cons e rest ih =>
    simp only [validEvents, Bool.and_eq_true, ih, List.mem_cons]
    constructor
    · rintro ⟨he, hrest⟩ x (rfl | hx)
      · match x, he with
        | Yaml.map m, he => exact ⟨m, rfl, he⟩
      · exact hrest x hx
    · intro h
      refine ⟨?_, fun x hx => h x (Or.inr hx)⟩
      obtain ⟨m, rfl, hm⟩ := h e (Or.inl rfl)
      exact hm

/-- `validDays` as a predicate: every day value is a sequence of valid
events. -/
theorem validDays_iff (kvs : List (String × Yaml)) :
    validDays kvs = true ↔
      ∀ p ∈ kvs, ∃ evs, (p : String × Yaml).2 = Yaml.seq evs ∧
        ∀ e ∈ evs, ∃ m, e = Yaml.map m ∧ (lookupStr m "time").isSome = true := by
  induction kvs with
  | nil => simp [validDays]
  | cons p rest ih =>
    obtain ⟨k, v⟩ := p
    simp only [validDays, Bool.and_eq_true, ih, List.mem_cons]
    constructor
    · rintro ⟨hv, hrest⟩ x (rfl | hx)
      · match v, hv with
        | Yaml.seq evs, hv => exact ⟨evs, rfl, (validEvents_iff evs).mp hv⟩
      · exact hrest x hx
    · intro h
      refine ⟨?_, fun x hx => h x (Or.inr hx)⟩
      obtain ⟨evs, hveq, hm⟩ := h (k, v) (Or.inl rfl)
      simp only at hveq
      subst hveq
      exact (validEvents_iff evs).mpr hm

/-- Claim C4 (amended): loading a schedule document fails as a whole
exactly when one of the four structural violations is present (top level
not a mapping, a day value not a sequence, an event not a mapping, an event
without a `"time"` key); when none is present the whole document is
installed.  A time value that does not parse as "HH:MM" is *not* rejected
at load. -/
theorem c4_load_validation (y : Yaml) :
    (SpecStructValid y →
      ∃ kvs, y = Yaml.map kvs ∧ parseSchedule (some y) = some kvs) ∧
    (¬ SpecStructValid y → parseSchedule (some y) = none) := by
  constructor
  · rintro ⟨kvs, rfl, hval⟩
    refine ⟨kvs, rfl, ?_⟩
    simp [parseSchedule, (validDays_iff kvs).mpr hval]
  · intro hnot
    cases y with
    | map kvs =>
      have hv : validDays kvs = false := by
        by_contra h
        exact hnot ⟨kvs, rfl, (validDays_iff kvs).mp (by
          cases hb : validDays kvs with
          | true => rfl
          | false => exact absurd hb h)⟩
      simp [parseSchedule, hv]
    | null => rfl
    | bool b => rfl
    | num q => rfl
    | str s => rfl
    | seq xs => rfl

/-- Counterexample to Claim C4 as stated: the document
`{monday: [{time: "banana"}]}` carries a time field that does not parse as
"HH:MM", yet `_parse_schedule` installs it whole instead of failing. -/
theorem c4_counterexample :
    parseHHMM "banana" = none ∧
    parseSchedule (some c4BadDoc) =
      some [("monday", Yaml.seq [Yaml.map [("time", Yaml.str "banana")]])] :=
  ⟨rfl, rfl⟩

/-- Witness for C4: a structurally valid one-day document is installed
whole, and a structurally invalid document (top level a plain string) is
rejected. -/
theorem c4_witness :
    SpecStructValid (Yaml.map [("monday", Yaml.seq [])]) ∧
    parseSchedule (some (Yaml.map [("monday", Yaml.seq [])])) =
      some [("monday", Yaml.seq [])] ∧
    parseSchedule (some (Yaml.str "nope")) = none := by
  have hval : SpecStructValid (Yaml.map [("monday", Yaml.seq [])]) := by
    refine ⟨[("monday", Yaml.seq [])], rfl, ?_⟩
    intro p hp
    simp only [List.mem_singleton] at hp
    subst hp
    exact ⟨[], rfl, by simp⟩
  have hnot : ¬ SpecStructValid (Yaml.str "nope") := by
    rintro ⟨kvs, h, -⟩
    cases h
  refine ⟨hval, ?_, (c4_load_validation (Yaml.str "nope")).2 hnot⟩
  obtain ⟨kvs, hk, hp⟩ := (c4_load_validation (Yaml.map [("monday", Yaml.seq [])])).1 hval
  cases hk
  exact hp

/-! ## C8: runtime attribution -/

/-- No safety evaluation ever touches the override window: every branch of
`_async_check_safety_temp` returns a state whose `override_active` and
`override_until` equal the input state (the only calls that could set an
override are bare, never-awaited coroutine constructions). -/
theorem checkSafetyTemp_override_frame (st : SupState) (st2 : SupState)
    (pend : List PendingCoroutine) (notifs : List String)
    (h : checkSafetyTemp st = some (st2, pend, notifs)) :
    st2.override_active = st.override_active ∧
    st2.override_until = st.override_until := by
  unfold checkSafetyTemp at h
  cases htemp : st.current_temperature with
  | none =>
    rw [htemp] at h
    simp only [Option.some.injEq, Prod.mk.injEq] at h
    obtain ⟨hst, -, -⟩ := h
    subst hst
    exact ⟨rfl, rfl⟩
  | some t =>
    rw [htemp] at h
    by_cases hact : st.safety_active = true
    case neg =>
      rw [Bool.not_eq_true] at hact
      rw [hact] at h
      simp only [Bool.false_eq_true, if_false] at h
      by_cases hoff : st.hvac_mode = modeOff
      case neg =>
        rw [if_neg hoff] at h
        simp only [Option.some.injEq, Prod.mk.injEq] at h
        obtain ⟨hst, -, -⟩ := h
        subst hst
        exact ⟨rfl, rfl⟩
      case pos =>
        rw [if_pos hoff] at h
        cases hmin : st.safety_min_temp with
        | some mn =>
          rw [hmin] at h
          by_cases hlow : t < mn
          · simp only [hlow, if_true, safetyHeatActivation,
              Option.some.injEq, Prod.mk.injEq] at h
            obtain ⟨hst, -, -⟩ := h
            subst hst
            exact ⟨rfl, rfl⟩
          · simp only [hlow, if_false, safetyMaxCheck] at h
            cases hmax : st.safety_max_temp with
            | some mx =>
              rw [hmax] at h
              by_cases hhigh : mx < t
              · simp only [hhigh, if_true, safetyCoolActivation,
                  Option.some.injEq, Prod.mk.injEq] at h
                obtain ⟨hst, -, -⟩ := h
                subst hst
                exact ⟨rfl, rfl⟩
              · simp only [hhigh, if_false, Option.some.injEq,
                  Prod.mk.injEq] at h
                obtain ⟨hst, -, -⟩ := h
                subst hst
                exact ⟨rfl, rfl⟩
            | none =>
              rw [hmax] at h
              simp only [Option.some.injEq, Prod.mk.injEq] at h
              obtain ⟨hst, -, -⟩ := h
              subst hst
              exact ⟨rfl, rfl⟩
        | none =>
          rw [hmin] at h
          simp only [safetyMaxCheck] at h
          cases hmax : st.safety_max_temp with
          | some mx =>
            rw [hmax] at h
            by_cases hhigh : mx < t
            · simp only [hhigh, if_true, safetyCoolActivation,
                Option.some.injEq, Prod.mk.injEq] at h
              obtain ⟨hst, -, -⟩ := h
              subst hst
              exact ⟨rfl, rfl⟩
            · simp only [hhigh, if_false, Option.some.injEq,
                Prod.mk.injEq] at h
              obtain ⟨hst, -, -⟩ := h
              subst hst
              exact ⟨rfl, rfl⟩
          | none =>
            rw [hmax] at h
            simp only [Option.some.injEq, Prod.mk.injEq] at h
            obtain ⟨hst, -, -⟩ := h
            subst hst
            exact ⟨rfl, rfl⟩
    case pos =>
      rw [hact] at h
      simp only [if_true] at h
      by_cases hdiff : some st.hvac_mode ≠ st.safety_triggered_mode
      · rw [if_pos hdiff] at h
        simp only [Option.some.injEq, Prod.mk.injEq] at h
        obtain ⟨hst, -, -⟩ := h
        subst hst
        exact ⟨rfl, rfl⟩
      · rw [if_neg hdiff] at h
        by_cases hheat : st.safety_triggered_mode = some modeHeat
        · rw [if_pos hheat] at h
          cases hmin : st.safety_min_temp with
          | none =>
            rw [hmin] at h
            exact Option.noConfusion h
          | some mn =>
            rw [hmin] at h
            by_cases hrec : mn + HYSTERESIS_BUFFER ≤ t
            · simp only [hrec, if_true, safetyRelease,
                Option.some.injEq, Prod.mk.injEq] at h
              obtain ⟨hst, -, -⟩ := h
              subst hst
              exact ⟨rfl, rfl⟩
            · simp only [hrec, if_false, Option.some.injEq,
                Prod.mk.injEq] at h
              obtain ⟨hst, -, -⟩ := h
              subst hst
              exact ⟨rfl, rfl⟩
        · rw [if_neg hheat] at h
          by_cases hcool : st.safety_triggered_mode = some modeCool
          · rw [if_pos hcool] at h
            cases hmax : st.safety_max_temp with
            | none =>
              rw [hmax] at h
              exact Option.noConfusion h
            | some mx =>
              rw [hmax] at h
              by_cases hrec : t ≤ mx - HYSTERESIS_BUFFER
              · simp only [hrec, if_true, safetyRelease,
                  Option.some.injEq, Prod.mk.injEq] at h
                obtain ⟨hst, -, -⟩ := h
                subst hst
                exact ⟨rfl, rfl⟩
              · simp only [hrec, if_false, Option.some.injEq,
                  Prod.mk.injEq] at h
                obtain ⟨hst, -, -⟩ := h
                subst hst
                exact ⟨rfl, rfl⟩
          · rw [if_neg hcool] at h
            simp only [Option.some.injEq, Prod.mk.injEq] at h
            obtain ⟨hst, -, -⟩ := h
            subst hst
            exact ⟨rfl, rfl⟩

/-- If no decorated event is due yet, the scan keeps its accumulator. -/
theorem scanLoop_all_after (ps : List (Nat × Yaml)) (tod : Nat)
    (acc : Option Yaml) (h : ∀ p ∈ ps, ¬ p.1 ≤ tod) :
    scanLoop ps tod acc = acc := by
  cases ps with
  | nil => rfl
  | cons p rest => simp [scanLoop, h p (List.mem_cons_self p rest)]

/-- On a sorted decorated list containing a due event, the scan returns a
due event of maximal time. -/
theorem scanLoop_finds (ps : List (Nat × Yaml)) (tod : Nat)
    (hs : List.Sorted (fun a b => a.1 ≤ b.1) ps)
    (hex : ∃ p ∈ ps, p.1 ≤ tod) :
    ∀ acc, ∃ p ∈ ps, scanLoop ps tod acc = some p.2 ∧ p.1 ≤ tod ∧
      ∀ q ∈ ps, q.1 ≤ tod → q.1 ≤ p.1 := by
  induction ps with
  | nil =>
    obtain ⟨p, hp, -⟩ := hex
    cases hp
  | cons hd rest ih =>
    intro acc
    rw [List.sorted_cons] at hs
    obtain ⟨hhd, hrest⟩ := hs
    have hhdle : hd.1 ≤ tod := by
      obtain ⟨p, hp, hple⟩ := hex
      rcases List.mem_cons.mp hp with rfl | hp
      · exact hple
      · exact le_trans (hhd p hp) hple
    simp only [scanLoop, if_pos hhdle]
    by_cases hq : ∃ p ∈ rest, p.1 ≤ tod
    · obtain ⟨p, hp, heq, hple, hmax⟩ := ih hrest hq (some hd.2)
      refine ⟨p, List.mem_cons_of_mem hd hp, heq, hple, ?_⟩
      intro q hq2 hq2le
      rcases List.mem_cons.mp hq2 with rfl | hq2
      · exact hhd p hp
      · exact hmax q hq2 hq2le
    · push_neg at hq
      refine ⟨hd, List.mem_cons_self hd rest,
        scanLoop_all_after rest tod (some hd.2)
          (fun p hp hple => absurd hple (not_le.mpr (hq p hp))),
        hhdle, ?_⟩
      intro q hq2 hq2le
      rcases List.mem_cons.mp hq2 with rfl | hq2
      · exact le_refl _
      · exact absurd hq2le (not_le.mpr (hq q hq2))

/-- What a successful decoration says about its pairs. -/
theorem decorate_some (evs : List Yaml) (ps : List (Nat × Yaml))
    (h : decorate evs = some ps) :
    ps.map Prod.snd = evs ∧ ∀ p ∈ ps, eventTimeVal p.2 = some p.1 := by
  induction evs generalizing ps with
  | nil =>
    simp only [decorate, Option.some.injEq] at h
    subst h
    exact ⟨rfl, by simp⟩
  | cons e rest ih =>
    simp only [decorate] at h
    cases het : eventTimeVal e with
    | none =>
      rw [het] at h
      cases h
    | some t =>
      rw [het] at h
      cases hdr : decorate rest with
      | none =>
        rw [hdr] at h
        cases h
      | some ps0 =>
        rw [hdr] at h
        simp only [Option.some.injEq] at h
        subst h
        obtain ⟨ih1, ih2⟩ := ih ps0 hdr
        refine ⟨by simp [ih1], ?_⟩
        intro p hp
        rcases List.mem_cons.mp hp with rfl | hp
        · exact het
        · exact ih2 p hp

/-- Decoration succeeds when every event time parses. -/
theorem decorate_total (evs : List Yaml)
    (h : ∀ e ∈ evs, (eventTimeVal e).isSome) :
    ∃ ps, decorate evs = some ps := by
  induction evs with
  | nil => exact ⟨[], rfl⟩
  | cons e rest ih =>
    obtain ⟨t, het⟩ :=
      Option.isSome_iff_exists.mp (h e (List.mem_cons_self e rest))
    obtain ⟨ps, hps⟩ := ih (fun x hx => h x (List.mem_cons_of_mem e hx))
    exact ⟨(t, e) :: ps, by simp [decorate, het, hps]⟩

/-- Reduction of `get_current_setpoint` past the override check. -/
theorem getCurrentSetpoint_eval (sched : List (String × Yaml)) (oact : Bool)
    (ountil : Option DT) (now : DT)
    (hne : sched ≠ [])
    (hov : (oact && (match ountil with
                     | some u => DT.before now u
                     | none => false)) = false) :
    getCurrentSetpoint (some sched) oact ountil now =
      (match lookupStr sched (weekdayName now) with
       | none => some (none, false, none)
       | some (.seq evs) =>
         (match decorate evs with
          | none => none
          | some ps =>
            some (scanLoop (List.insertionSort (fun a b => a.1 ≤ b.1) ps)
                    now.tod none, false, none))
       | some _ => none) := by
  have hemp : sched.isEmpty = false := by
    cases sched with
    | nil => exact absurd rfl hne
    | cons p rest => rfl
  simp only [getCurrentSetpoint, hemp, hov, Bool.false_eq_true, if_false]

/-- Claim C6 (amended): for every loaded *non-empty* schedule whose events
for today all carry parseable times, evaluation without an active unexpired
override clears the override flags and returns `None` when today has no
entry, `None` when every event of today is strictly later than now, and
otherwise some event of today of maximal time-of-day not exceeding now;
in particular, on the scenario schedule, Monday 08:00 selects the 06:00
event (temperature 20), Monday 23:00 the 22:00 event (temperature 17), and
Monday 05:00 selects nothing. -/
theorem c6_schedule_evaluation :
    (∀ (sched : List (String × Yaml)) (oact : Bool) (ountil : Option DT)
       (now : DT),
      sched ≠ [] →
      (oact = false ∨ ∀ u, ountil = some u → DT.before now u = false) →
      ((lookupStr sched (weekdayName now) = none →
        getCurrentSetpoint (some sched) oact ountil now =
          some (none, false, none)) ∧
       (∀ evs, lookupStr sched (weekdayName now) = some (Yaml.seq evs) →
         (∀ e ∈ evs, (eventTimeVal e).isSome) →
         (((∀ e ∈ evs, ∀ te, eventTimeVal e = some te → now.tod < te) →
           getCurrentSetpoint (some sched) oact ountil now =
             some (none, false, none)) ∧
          (∀ e0 ∈ evs, ∀ te0, eventTimeVal e0 = some te0 → te0 ≤ now.tod →
           ∃ e ∈ evs, ∃ te, eventTimeVal e = some te ∧ te ≤ now.tod ∧
             getCurrentSetpoint (some sched) oact ountil now =
               some (some e, false, none) ∧
             ∀ e2 ∈ evs, ∀ te2, eventTimeVal e2 = some te2 →
               te2 ≤ now.tod → te2 ≤ te))))) ∧
    (getCurrentSetpoint (some demoSched) false none ⟨0, 480⟩ =
       some (some demoEv06, false, none) ∧
     getCurrentSetpoint (some demoSched) false none ⟨0, 1380⟩ =
       some (some demoEv22, false, none) ∧
     getCurrentSetpoint (some demoSched) false none ⟨0, 300⟩ =
       some (none, false, none)) := by
  constructor
  · intro sched oact ountil now hne hnoov
    have heval := getCurrentSetpoint_eval sched oact ountil now hne (by
      rcases hnoov with h | h
      · rw [h]
        rfl
      · cases ountil with
        | none => simp
        | some u => simp [h u rfl])
    constructor
    · intro hlk
      rw [heval, hlk]
    · intro evs hlk htimes
      obtain ⟨ps, hdec⟩ := decorate_total evs htimes
      obtain ⟨hmap, hkeys⟩ := decorate_some evs ps hdec
      rw [heval, hlk]
      simp only [hdec]
      set r := fun a b : Nat × Yaml => a.1 ≤ b.1 with hr
      have hmemS : ∀ p : Nat × Yaml,
          p ∈ List.insertionSort r ps ↔ p ∈ ps := by
        intro p
        exact List.Perm.mem_iff (List.perm_insertionSort r ps)
      constructor
      · intro hall
        have hnone : ∀ p ∈ List.insertionSort r ps, ¬ p.1 ≤ now.tod := by
          intro p hp
          have hpps := (hmemS p).mp hp
          have hpe : p.2 ∈ evs := by
            rw [← hmap]
            exact List.mem_map_of_mem Prod.snd hpps
          exact not_le.mpr (hall p.2 hpe p.1 (hkeys p hpps))
        rw [scanLoop_all_after _ _ _ hnone]
      · intro e0 he0 te0 hte0 hdue
        obtain ⟨p0, hp0, hp0e⟩ := List.mem_map.mp (hmap ▸ he0)
        have hp0t : eventTimeVal p0.2 = some p0.1 := hkeys p0 hp0
        have hp0key : p0.1 = te0 := by
          rw [hp0e, hte0] at hp0t
          exact (Option.some.injEq _ _ ▸ hp0t).symm
        have hex : ∃ p ∈ List.insertionSort r ps, p.1 ≤ now.tod :=
          ⟨p0, (hmemS p0).mpr hp0, hp0key ▸ hdue⟩
        have hsort : List.Sorted r (List.insertionSort r ps) :=
          List.sorted_insertionSort r ps
        obtain ⟨p, hp, heq, hple, hmax⟩ :=
          scanLoop_finds (List.insertionSort r ps) now.tod hsort hex none
        have hpps := (hmemS p).mp hp
        refine ⟨p.2, ?_, p.1, hkeys p hpps, hple, by rw [heq], ?_⟩
        · rw [← hmap]
          exact List.mem_map_of_mem Prod.snd hpps
        · intro e2 he2 te2 hte2 hdue2
          obtain ⟨p2, hp2, hp2e⟩ := List.mem_map.mp (hmap ▸ he2)
          have hp2t : eventTimeVal p2.2 = some p2.1 := hkeys p2 hp2
          have hp2key : p2.1 = te2 := by
            rw [hp2e, hte2] at hp2t
            exact (Option.some.injEq _ _ ▸ hp2t).symm
          have := hmax p2 ((hmemS p2).mpr hp2) (hp2key ▸ hdue2)
          rw [← hp2key]
          exact this
  · exact ⟨by rfl, by rfl, by rfl⟩

/-- Counterexample to Claim C6 as stated: the empty mapping `{}` is a
loadable schedule, but it is falsy in Python, so evaluation with an
*expired* override returns early and does **not** clear the override flags
(`override_active` stays `true`), contradicting the clearing clause. -/
theorem c6_counterexample :
    parseSchedule (some (Yaml.map [])) = some [] ∧
    DT.before ⟨5, 0⟩ ⟨0, 0⟩ = false ∧
    getCurrentSetpoint (some []) true (some ⟨0, 0⟩) ⟨5, 0⟩ =
      some (none, true, some ⟨0, 0⟩) ∧
    ((true : Bool), (some (⟨0, 0⟩ : DT) : Option DT)) ≠
      ((false : Bool), (none : Option DT)) :=
  ⟨rfl, rfl, rfl, by decide⟩

/-- Witness for C6: the scenario schedule at Monday 08:00 selects a due
event of maximal time. -/
theorem c6_witness :
    demoSched ≠ [] ∧
    eventTimeVal demoEv06 = some 360 ∧ (360 : Nat) ≤ 480 ∧
    ∃ e ∈ [demoEv06, demoEv22], ∃ te, eventTimeVal e = some te ∧
      te ≤ 480 ∧
      getCurrentSetpoint (some demoSched) false none ⟨0, 480⟩ =
        some (some e, false, none) ∧
      ∀ e2 ∈ [demoEv06, demoEv22], ∀ te2, eventTimeVal e2 = some te2 →
        te2 ≤ 480 → te2 ≤ te := by
  refine ⟨List.cons_ne_nil _ _, rfl, by decide, ?_⟩
  have h := ((c6_schedule_evaluation.1 demoSched false none ⟨0, 480⟩
      (List.cons_ne_nil _ _) (Or.inl rfl)).2 [demoEv06, demoEv22] rfl
      (by decide)).2 demoEv06 (List.mem_cons_self _ _) 360 rfl (by decide)
  exact h

/-! ## C7: dispatching a returned setpoint -/

/-- No set operation ever completes: awaited, `async_set_hvac_mode` raises
`NameError` inside `_get_next_schedule_time()` before any effect. -/
theorem setHvacModeOp_eq_none (st : SupState) (now : DT) (m : String) :
    setHvacModeOp st now m = none := rfl

/-- Likewise for `async_set_temperature`. -/
theorem setTemperatureOp_eq_none (st : SupState) (now : DT) (v : Yaml) :
    setTemperatureOp st now v = none := rfl

/-- Claim C7 (amended): when evaluation returns a setpoint, any actually
attempted dispatch aborts the tick, so no command is ever issued.
Specifically: a nonempty `hvac_mode` string differing from the current
mode whose lowercase form names a valid mode makes the handler await
`async_set_hvac_mode`, which raises `NameError` inside
`_get_next_schedule_time()` before the service call; with no mode
dispatch, a nonzero temperature differing from the current target makes
it await `async_set_temperature`, which raises the same way; and when the
setpoint matches the current mode and temperature (or its temperature is
the falsy 0) the tick completes without attempting a dispatch and without
issuing a command. -/
theorem c7_schedule_command_dispatch :
    (∀ (st : SupState) (now : DT) (kvs : List (String × Yaml)) (oa : Bool)
       (ou : Option DT) (s : String),
      getCurrentSetpoint st.schedule st.override_active
        st.override_until now = some (some (Yaml.map kvs), oa, ou) →
      kvs ≠ [] →
      lookupStr kvs "hvac_mode" = some (Yaml.str s) →
      s ≠ "" → s ≠ st.hvac_mode →
      validHvacModeStr (lowerStr s) = true →
      applySchedule st now = none) ∧
    (∀ (st : SupState) (now : DT) (kvs : List (String × Yaml)) (oa : Bool)
       (ou : Option DT) (q : ℚ),
      getCurrentSetpoint st.schedule st.override_active
        st.override_until now = some (some (Yaml.map kvs), oa, ou) →
      kvs ≠ [] →
      (lookupStr kvs "hvac_mode" = none ∨
        ∃ s, lookupStr kvs "hvac_mode" = some (Yaml.str s) ∧
          (s = "" ∨ s = st.hvac_mode)) →
      lookupStr kvs "temperature" = some (Yaml.num q) →
      q ≠ 0 →
      st.target_temperature ≠ some q →
      applySchedule st now = none) ∧
    (∀ (st : SupState) (now : DT) (kvs : List (String × Yaml)) (oa : Bool)
       (ou : Option DT) (q : ℚ),
      getCurrentSetpoint st.schedule st.override_active
        st.override_until now = some (some (Yaml.map kvs), oa, ou) →
      lookupStr kvs "hvac_mode" = some (Yaml.str st.hvac_mode) →
      lookupStr kvs "temperature" = some (Yaml.num q) →
      st.target_temperature = some q →
      ∃ st2, applySchedule st now = some (st2, [])) := by
  refine ⟨?_, ?_, ?_⟩
  · intro st now kvs oa ou s heval hk hm hs hsne hvalid
    have htr : Yaml.truthy (Yaml.map kvs) = true := by
      simp [Yaml.truthy, hk]
    have hstr : Yaml.truthy (Yaml.str s) = true := by
      simp [Yaml.truthy, hs]
    have hif : ∀ x : SupState,
        (if s ≠ st.hvac_mode then
          (if validHvacModeStr (lowerStr s) = true then
            setHvacModeOp x now (lowerStr s)
          else none)
        else some (x, ([] : List Command))) = none := fun x => by
      rw [if_pos hsne, if_pos hvalid, setHvacModeOp_eq_none]
    simp only [applySchedule, heval, htr, if_true, hm, hstr, hif]
  · intro st now kvs oa ou q heval hk hmw ht hq0 hnt
    have htr : Yaml.truthy (Yaml.map kvs) = true := by
      simp [Yaml.truthy, hk]
    have htq : Yaml.truthy (Yaml.num q) = true := by
      simp [Yaml.truthy, hq0]
    have heqf : ∀ tt : Option ℚ, tt = st.target_temperature →
        (match Yaml.num q, tt with
         | Yaml.num q2, some ct => decide (q2 = ct)
         | _, _ => false) = false := by
      intro tt htt
      cases tt with
      | none => rfl
      | some ct =>
        have hqc : q ≠ ct := fun h => hnt (by rw [← htt, h])
        simp [hqc]
    simp only [applySchedule, heval, htr, if_true]
    rcases hmw with hmn | ⟨s, hms, hcase⟩
    · simp only [hmn, ht, htq, if_true, heqf _ rfl, Bool.false_eq_true,
        if_false, setTemperatureOp_eq_none]
    · simp only [hms]
      by_cases hse : s = ""
      · have hstr : Yaml.truthy (Yaml.str s) = false := by
          simp [Yaml.truthy, hse]
        simp only [hstr, Bool.false_eq_true, if_false, ht, htq, if_true,
          heqf _ rfl, setTemperatureOp_eq_none]
      · have hsm : s = st.hvac_mode := by
          rcases hcase with h | h
          · exact absurd h hse
          · exact h
        have hstr : Yaml.truthy (Yaml.str s) = true := by
          simp [Yaml.truthy, hse]
        have hifeq : ∀ x : SupState,
            (if s ≠ st.hvac_mode then
              (if validHvacModeStr (lowerStr s) = true then
                setHvacModeOp x now (lowerStr s)
              else none)
            else some (x, ([] : List Command))) =
              some (x, ([] : List Command)) := fun x => by
          rw [if_neg (by simpa using hsm)]
        simp only [hstr, if_true, hifeq, ht, htq, heqf _ rfl,
          Bool.false_eq_true, if_false, setTemperatureOp_eq_none]
  · intro st now kvs oa ou q heval hm ht htt
    have heqt : (match Yaml.num q, st.target_temperature with
        | Yaml.num q2, some ct => decide (q2 = ct)
        | _, _ => false) = true := by
      rw [htt]
      simp
    by_cases hk : kvs = []
    · subst hk
      simp [lookupStr] at hm
    · have htr : Yaml.truthy (Yaml.map kvs) = true := by
        simp [Yaml.truthy, hk]
      simp only [applySchedule, heval, htr, if_true, hm]
      by_cases hse : st.hvac_mode = ""
      · have hstr : Yaml.truthy (Yaml.str st.hvac_mode) = false := by
          simp [Yaml.truthy, hse]
        simp only [hstr, Bool.false_eq_true, if_false, ht]
        by_cases htq : Yaml.truthy (Yaml.num q) = true
        · simp only [htq, if_true, heqt]
          exact ⟨_, rfl⟩
        · simp only [Bool.not_eq_true] at htq
          simp only [htq, Bool.false_eq_true, if_false]
          exact ⟨_, rfl⟩
      · have hstr : Yaml.truthy (Yaml.str st.hvac_mode) = true := by
          simp [Yaml.truthy, hse]
        have hifeq : ∀ x : SupState,
            (if st.hvac_mode ≠ st.hvac_mode then
              (if validHvacModeStr (lowerStr st.hvac_mode) = true then
                setHvacModeOp x now (lowerStr st.hvac_mode)
              else none)
            else some (x, ([] : List Command))) =
              some (x, ([] : List Command)) := fun x => by
          rw [if_neg (by simp)]
        simp only [hstr, if_true, hifeq, ht]
        by_cases htq : Yaml.truthy (Yaml.num q) = true
        · simp only [htq, if_true, heqt]
          exact ⟨_, rfl⟩
        · simp only [Bool.not_eq_true] at htq
          simp only [htq, Bool.false_eq_true, if_false]
          exact ⟨_, rfl⟩

/-- Counterexample to Claim C7 as stated: the schedule returns a setpoint
carrying temperature 0 while the current target is 20 — the values differ,
yet no set-temperature command is issued (and no exception is raised
either), because `if target_temp:` treats the float 0 as false and the
dispatch is never attempted. -/
theorem c7_counterexample :
    getCurrentSetpoint c7CounterSt.schedule c7CounterSt.override_active
        c7CounterSt.override_until ⟨0, 480⟩ =
      some (some c7Ev0, false, none) ∧
    lookupStr [("time", Yaml.str "06:00"), ("temperature", Yaml.num 0)]
      "temperature" = some (Yaml.num 0) ∧
    c7CounterSt.target_temperature = some 20 ∧
    (0 : ℚ) ≠ 20 ∧
    applySchedule c7CounterSt ⟨0, 480⟩ =
      some ({ c7CounterSt with override_active := false,
                               override_until := none }, []) :=
  ⟨rfl, rfl, rfl, by decide, by rfl⟩

/-- Witness for C7: a setpoint carrying mode `heat` while the device is
off makes the tick await `async_set_hvac_mode`, which raises — the tick
aborts with no command. -/
theorem c7_witness :
    getCurrentSetpoint c7WitnessSt.schedule c7WitnessSt.override_active
        c7WitnessSt.override_until ⟨0, 480⟩ =
      some (some (Yaml.map c7WitnessKvs), false, none) ∧
    lookupStr c7WitnessKvs "hvac_mode" = some (Yaml.str "heat") ∧
    "heat" ≠ c7WitnessSt.hvac_mode ∧
    applySchedule c7WitnessSt ⟨0, 480⟩ = none := by
  refine ⟨rfl, rfl, by decide, ?_⟩
  exact c7_schedule_command_dispatch.1 c7WitnessSt ⟨0, 480⟩ c7WitnessKvs
    false none "heat" rfl (List.cons_ne_nil _ _) rfl (by decide) (by decide)
    (by decide)
